import Mathlib

/-!
Verification model of the client application core in `src/frontend/app.js`
of The Muggle Guide (a reading/recommendation SPA).

Each definition is a shallow embedding of a function or handler from the
source file; network effects are made explicit by passing wire responses in
and returning the list of network calls out. JavaScript machine behaviour
(falsy-or defaults, `atob` forgiving base64, `encodeURIComponent`,
`parseInt`, `trim`) is modelled byte-for-byte where a claim depends on it.
-/

namespace MuggleGuide

/-- JavaScript `a || b` for an optional string field: `undefined`, `null`
and the empty string are falsy and fall through to the default. -/
def jsOr (v : Option String) (fb : String) : String :=
  match v with
  | some s => if s = "" then fb else s
  | none => fb

/-! ## Session state and `api.refreshToken` (app.js lines 63-79)

`state.token` is the in-memory access token; `localStorage 'mg_refresh'`
is the durable refresh token. -/

/-- Session-relevant mutable state: the in-memory access token
(`state.token`) and the durably stored refresh token
(`localStorage.getItem('mg_refresh')`). -/
structure Session where
  token : Option String
  refreshStored : Option String
deriving Repr, DecidableEq

/-- Body of a successful refresh response after `r.json()`:
`{access_token, refresh_token}`. -/
structure RefreshData where
  access_token : String
  refresh_token : String
deriving Repr, DecidableEq

/-- Behaviour of the wire on the `POST /auth/refresh` call:
either the `fetch` promise rejects (`exn`), or a response arrives with its
`ok` flag and, when the body parses to a truthy value, the parsed data
(`none` models a body that is absent, unparseable, or JSON-falsy). -/
inductive RefreshWire
  | exn : RefreshWire
  | resp : Bool → Option RefreshData → RefreshWire
deriving Repr, DecidableEq

/-- Model of `api.refreshToken()` (app.js 63-79). Returns the boolean
result, the session after the call, and the number of network
`POST /auth/refresh` requests issued (0 or 1). The `try`/`catch` and
`r.ok ? r.json() : null` structure means every failure path returns
`false` without touching the session. -/
def refreshTokenRun (st : Session) (wire : RefreshWire) :
    Bool × Session × Nat :=
  match st.refreshStored with
  | none => (false, st, 0)
  | some _ =>
    match wire with
    | .exn => (false, st, 1)
    | .resp ok body =>
      match (if ok then body else none) with
      | some data =>
        (true,
         { token := some data.access_token,
           refreshStored := some data.refresh_token }, 1)
      | none => (false, st, 1)

/-! ## `api.request` (app.js lines 31-61) -/

/-- Result of `res.json()` on a response body, retaining only what the
client inspects: whether the body parses, and the optional string
`detail` field of the parsed object. -/
inductive BodyJson
  | unparseable : BodyJson
  | obj : Option String → BodyJson
deriving Repr, DecidableEq

/-- An HTTP response as the client observes it: numeric status and body. -/
structure Response where
  status : Nat
  body : BodyJson
deriving Repr, DecidableEq

/-- Behaviour of the wire on one `fetch`: rejection or a response. -/
inductive FetchResult
  | exn : FetchResult
  | resp : Response → FetchResult
deriving Repr, DecidableEq

/-- The `Response.ok` flag of the Fetch API: status in the range 200-299. -/
def okStatus (s : Nat) : Bool := decide (200 ≤ s) && decide (s < 300)

/-- One network call made during `api.request`, with the bearer token the
request carried (`none` when no Authorization header was attached). -/
inductive NetCall
  | fetchOriginal : Option String → NetCall
  | postRefresh : NetCall
  | fetchRetry : Option String → NetCall
deriving Repr, DecidableEq

/-- Observable outcome of `api.request`: a resolved value (`success none`
models the `204` null result, `success (some d)` a parsed JSON body with
optional `detail` field), a propagated `fetch` rejection, a propagated
`res.json()` parse rejection, or a thrown `Error` with its message. -/
inductive ReqOutcome
  | success : Option (Option String) → ReqOutcome
  | thrownNetwork : ReqOutcome
  | thrownParse : ReqOutcome
  | thrownMsg : String → ReqOutcome
deriving Repr, DecidableEq

/-- Full observable result of one `api.request` call. -/
structure ReqResult where
  outcome : ReqOutcome
  finalState : Session
  calls : List NetCall
deriving Repr, DecidableEq

/-- Reading a 2xx response body as the source does:
`if (status === 204) return null; return res.json()` — an unparseable
body makes the returned promise reject. -/
def readOkBody (r : Response) : ReqOutcome :=
  if r.status = 204 then .success none
  else
    match r.body with
    | .unparseable => .thrownParse
    | .obj d => .success (some d)

/-- Model of `api.request(method, path, body)` (app.js 31-61). The three
wire parameters give the behaviour of, in order, the original `fetch`,
the `POST /auth/refresh` issued by `refreshToken` (consulted only when
the original response is 401 and a refresh token is stored), and the
retried `fetch` (consulted only when the refresh succeeded). -/
def apiRequest (st : Session) (first : FetchResult) (rw : RefreshWire)
    (retryW : FetchResult) : ReqResult :=
  let origCall := NetCall.fetchOriginal st.token
  match first with
  | .exn => ⟨.thrownNetwork, st, [origCall]⟩
  | .resp r =>
    if r.status = 401 then
      let res := refreshTokenRun st rw
      let refreshed := res.1
      let st1 := res.2.1
      let refCalls : List NetCall :=
        if res.2.2 = 1 then [NetCall.postRefresh] else []
      if refreshed then
        let calls := origCall :: refCalls ++ [NetCall.fetchRetry st1.token]
        match retryW with
        | .exn => ⟨.thrownNetwork, st1, calls⟩
        | .resp r2 =>
          if okStatus r2.status then ⟨readOkBody r2, st1, calls⟩
          else
            match r2.body with
            | .unparseable => ⟨.thrownParse, st1, calls⟩
            | .obj d => ⟨.thrownMsg (jsOr d "Request failed"), st1, calls⟩
      else
        ⟨.thrownMsg "Session expired",
         { token := none, refreshStored := none }, origCall :: refCalls⟩
    else if okStatus r.status then
      ⟨readOkBody r, st, [origCall]⟩
    else
      let d := match r.body with
        | .unparseable => none
        | .obj d => d
      ⟨.thrownMsg (jsOr d ("Error " ++ toString r.status)), st, [origCall]⟩

/-- Outcome `api.request` produces from the retried fetch after a
successful refresh (app.js 46-49): a rejection propagates; a non-ok
response throws an error carrying the body's `detail` or a generic
failure message; an ok response resolves as usual. -/
def retryOutcomeOf (fr : FetchResult) : ReqOutcome :=
  match fr with
  | .exn => .thrownNetwork
  | .resp r2 =>
    if okStatus r2.status then readOkBody r2
    else
      match r2.body with
      | .unparseable => .thrownParse
      | .obj d => .thrownMsg (jsOr d "Request failed")

/-- Server-supplied human-readable message of an error response: present
exactly when the body parses to a structured payload with a nonempty
`detail` field. -/
def serverMsg (b : BodyJson) : Option String :=
  match b with
  | .obj (some s) => if s = "" then none else some s
  | _ => none

/-! ## Discover view: search, genre filter, pagination (app.js 253-400) -/

/-- Discover-view slice of the global `state` object. -/
structure DiscoverState where
  page : Nat
  pageSize : Nat
  searchQuery : String
  genreFilter : String
deriving Repr, DecidableEq

/-- Query parameters of one `GET /books` request issued by `loadBooks`. -/
structure BooksFetch where
  page : Nat
  pageSize : Nat
  search : String
  genre : String
deriving Repr, DecidableEq

/-- The `GET /books` request `loadBooks` builds from the current state
(app.js 326-328): parameters are read from `state` at call time. -/
def loadBooksFetch (st : DiscoverState) : BooksFetch :=
  ⟨st.page, st.pageSize, st.searchQuery, st.genreFilter⟩

/-- UTF-8 bytes of one character, as `encodeURIComponent` percent-encodes
them. -/
def utf8Bytes (c : Char) : List Nat :=
  let n := c.toNat
  if n < 128 then [n]
  else if n < 2048 then [192 + n / 64, 128 + n % 64]
  else if n < 65536 then
    [224 + n / 4096, 128 + (n / 64) % 64, 128 + n % 64]
  else
    [240 + n / 262144, 128 + (n / 4096) % 64, 128 + (n / 64) % 64,
     128 + n % 64]

/-- Uppercase hexadecimal digit, as `encodeURIComponent` emits. -/
def hexDigit (n : Nat) : Char :=
  if n < 10 then Char.ofNat (48 + n) else Char.ofNat (55 + n)

/-- Characters `encodeURIComponent` leaves unescaped: ASCII alphanumerics
and `- _ . ! ~ * ( )` plus the apostrophe (code 39). -/
def uriUnreserved (c : Char) : Bool :=
  (65 ≤ c.toNat && c.toNat ≤ 90) || (97 ≤ c.toNat && c.toNat ≤ 122) ||
  (48 ≤ c.toNat && c.toNat ≤ 57) ||
  c = '-' || c = '_' || c = '.' || c = '!' || c = '~' || c = '*' ||
  c.toNat = 39 || c = '(' || c = ')'

/-- JavaScript `encodeURIComponent`: unreserved characters pass through,
everything else becomes `%HH` per UTF-8 byte with uppercase hex. -/
def encodeURIComponent (s : String) : String :=
  ⟨s.data.flatMap fun c =>
    if uriUnreserved c then [c]
    else (utf8Bytes c).flatMap fun b => ['%', hexDigit (b / 16), hexDigit (b % 16)]⟩

/-- URL string `loadBooks` builds (app.js 326-328): base page/page_size
query plus optional `search` and `genre` parameters, each added only when
the corresponding state field is non-empty. -/
def booksFetchUrl (f : BooksFetch) : String :=
  let base := "/books?page=" ++ toString f.page ++ "&page_size=" ++
    toString f.pageSize
  let s1 := if f.search ≠ "" then
    base ++ "&search=" ++ encodeURIComponent f.search else base
  if f.genre ≠ "" then s1 ++ "&genre=" ++ encodeURIComponent f.genre else s1

/-- JavaScript `String.prototype.trim`: drop whitespace from both ends. -/
def jsTrim (s : String) : String :=
  ⟨((s.data.dropWhile Char.isWhitespace).reverse.dropWhile
      Char.isWhitespace).reverse⟩

/-- Body of the debounced search timer (app.js 280-284): trim the input's
current value into `state.searchQuery`, reset `state.page` to 1, and call
`loadBooks`. Returns the new state and the `GET /books` requests issued. -/
def searchTimerBody (st : DiscoverState) (inputValue : String) :
    DiscoverState × List BooksFetch :=
  let st1 := { st with searchQuery := jsTrim inputValue, page := 1 }
  (st1, [loadBooksFetch st1])

/-- Genre-chip click handler (app.js 305-313): set `state.genreFilter`
from the chip, reset `state.page` to 1, and call `loadBooks`. Returns the
new state and the `GET /books` requests issued. -/
def genreChipHandler (st : DiscoverState) (chipGenre : String) :
    DiscoverState × List BooksFetch :=
  let st1 := { st with genreFilter := chipGenre, page := 1 }
  (st1, [loadBooksFetch st1])

/-! ## Debounce state machine (app.js 277-285)

`renderDiscover` owns a single `searchTimer` slot; every `input` event
runs `clearTimeout(searchTimer)` and arms a fresh 350 ms timer whose
callback reads the input element's current value. -/

/-- Transient per-Discover-instance debounce state: the search input's
current text, whether a timer is pending in the single shared slot, the
Discover slice of `state`, and the `GET /books` requests issued so far. -/
structure DebounceState where
  inputValue : String
  pendingTimer : Bool
  disc : DiscoverState
  fetches : List BooksFetch
deriving Repr, DecidableEq

/-- Events driving the debounce machine: a keystroke leaving the input
with the given full text, or the pending timer's quiet interval
elapsing. -/
inductive SearchEvent
  | keystroke : String → SearchEvent
  | timerFire : SearchEvent
deriving Repr, DecidableEq

/-- One step of the debounce machine. A keystroke cancels any pending
timer and arms a new one (the single slot makes this a boolean); a fire
with a pending timer runs `searchTimerBody` on the input's current value
and empties the slot; a fire with no pending timer cannot occur and is a
no-op. -/
def debounceStep (st : DebounceState) (ev : SearchEvent) : DebounceState :=
  match ev with
  | .keystroke s => { st with inputValue := s, pendingTimer := true }
  | .timerFire =>
    if st.pendingTimer then
      let r := searchTimerBody st.disc st.inputValue
      { st with pendingTimer := false, disc := r.1, fetches := st.fetches ++ r.2 }
    else st

/-- A whole event trace folded through the debounce machine. -/
def debounceRun (st : DebounceState) (evs : List SearchEvent) :
    DebounceState :=
  evs.foldl debounceStep st

/-! ## Pagination (app.js 381-400) -/

/-- Rendered pagination controls: whether any control is shown, the two
buttons' disabled flags, and the `data-page` target each button carries. -/
structure PaginationView where
  shown : Bool
  prevDisabled : Bool
  nextDisabled : Bool
  prevTarget : Nat
  nextTarget : Nat
deriving Repr, DecidableEq

/-- Model of `renderPagination` (app.js 381-400):
`totalPages = Math.ceil(totalBooks / pageSize)` (in natural numbers,
`(total + pageSize - 1) / pageSize` for positive `pageSize`); nothing is
rendered when `totalPages ≤ 1`; otherwise Previous is disabled iff
`page ≤ 1` and targets `page - 1`, Next is disabled iff
`page ≥ totalPages` and targets `page + 1`. -/
def renderPagination (totalBooks pageSize page : Nat) : PaginationView :=
  let totalPages := (totalBooks + pageSize - 1) / pageSize
  if totalPages ≤ 1 then ⟨false, true, true, 0, 0⟩
  else
    ⟨true, decide (page ≤ 1), decide (totalPages ≤ page),
     page - 1, page + 1⟩

/-- The `totalPages` value `renderPagination` computes. -/
def totalPagesOf (totalBooks pageSize : Nat) : Nat :=
  (totalBooks + pageSize - 1) / pageSize

/-! ## Book Detail: like, bookmark, star rating (app.js 497-551) -/

/-- Visible state of an action button: whether its active class is set
and the trailing label text node. -/
structure ActionBtn where
  active : Bool
  label : String
deriving Repr, DecidableEq

/-- Like-button click handler (app.js 497-507). `serverOk` is whether the
`POST /interactions` write would succeed. Returns the button state after
the handler, the number of network calls issued, and whether an error
toast was shown. An already-active button returns before any call; the
class and label flip only after the awaited write resolves. -/
def likeBtnClick (b : ActionBtn) (serverOk : Bool) :
    ActionBtn × Nat × Bool :=
  if b.active then (b, 0, false)
  else if serverOk then (⟨true, " Liked"⟩, 1, false)
  else (b, 1, true)

/-- Bookmark-button click handler (app.js 510-520), same shape as the
like handler with its own class and label. -/
def bookmarkBtnClick (b : ActionBtn) (serverOk : Bool) :
    ActionBtn × Nat × Bool :=
  if b.active then (b, 0, false)
  else if serverOk then (⟨true, " Bookmarked"⟩, 1, false)
  else (b, 1, true)

/-- Displayed star-rating state: the confirmed `currentRating` and the
rating label's text. -/
structure StarState where
  rating : Nat
  label : String
deriving Repr, DecidableEq

/-- Star click handler (app.js 536-550) for star value `v`. `serverOk` is
whether the rating `POST /interactions` write would succeed. Returns the
state after the handler, the number of network calls issued, and whether
an error toast was shown. A click on the currently confirmed value
returns before any call; `currentRating`, the filled stars and the label
update only after the awaited write resolves. -/
def starClick (s : StarState) (v : Nat) (serverOk : Bool) :
    StarState × Nat × Bool :=
  if v = s.rating then (s, 0, false)
  else if serverOk then
    (⟨v, "You rated " ++ toString v ++ "/5"⟩, 1, false)
  else (s, 1, true)

/-! ## Library view (app.js 663-773) -/

/-- One record of `GET /interactions/me`, as the Library view reads it. -/
structure InteractionRow where
  book_id : Nat
  interaction_type : String
  rating : Option Nat
deriving Repr, DecidableEq

/-- Client-side filter `renderLibraryList` applies (app.js 719-721). -/
def libraryFiltered (all : List InteractionRow) (filt : String) :
    List InteractionRow :=
  if filt = "all" then all
  else all.filter fun i => i.interaction_type = filt

/-- JavaScript `[...new Set(xs)]`: deduplicate keeping the first
occurrence of each element, in order. -/
def jsSetDedup (seen : List Nat) : List Nat → List Nat
  | [] => []
  | x :: xs =>
    if x ∈ seen then jsSetDedup seen xs
    else x :: jsSetDedup (x :: seen) xs

/-- Network calls `enrichLibraryItems` issues (app.js 763-773): one
`GET /books/{id}` per distinct `book_id` of the rows it is given. -/
def enrichLibraryItems (rows : List InteractionRow) : List String :=
  (jsSetDedup [] (rows.map fun i => i.book_id)).map fun id =>
    "/books/" ++ toString id

/-- Network calls issued by one run of `renderLibraryList` (app.js
715-761): none when the filtered list is empty (the empty-state branch
returns before enrichment), otherwise the enrichment fetches for the
filtered rows. An interaction-history fetch is never among them. -/
def renderLibraryListCalls (all : List InteractionRow) (filt : String) :
    List String :=
  let filtered := libraryFiltered all filt
  if filtered.isEmpty then [] else enrichLibraryItems filtered

/-- One Library view entry (app.js 663-713): `renderLibrary` fetches
`GET /interactions/me?page_size=100` once into `allInteractions`, renders
the list with the initial `all` filter, and every later tab click calls
`renderLibraryList(allInteractions, filter)` on the same fetched list.
Returns the number of interaction-history fetches and the network calls
of the initial render and of each tab click. -/
def renderLibrarySession (history : List InteractionRow)
    (tabClicks : List String) : Nat × List (List String) :=
  (1, renderLibraryListCalls history "all" ::
      tabClicks.map (renderLibraryListCalls history))

/-! ## `atob` — forgiving base64 decode (used by `decodeAndSetUser`)

The browser's `atob` implements WHATWG forgiving-base64: strip ASCII
whitespace; when the length is a multiple of 4, drop up to two trailing
padding signs; fail when the remaining length is 1 mod 4 or any character
is outside the standard alphabet (letters, digits, plus, slash); decode
6-bit groups to bytes. -/

/-- ASCII whitespace stripped by forgiving-base64. -/
def isB64Ws (c : Char) : Bool :=
  c.toNat = 9 || c.toNat = 10 || c.toNat = 12 || c.toNat = 13 ||
  c.toNat = 32

/-- Value of one character of the standard base64 alphabet; `none` for
every character outside it (in particular for the URL-safe alphabet's
minus and underscore, code points 45 and 95). -/
def b64CharVal (c : Char) : Option Nat :=
  if 65 ≤ c.toNat && c.toNat ≤ 90 then some (c.toNat - 65)
  else if 97 ≤ c.toNat && c.toNat ≤ 122 then some (c.toNat - 97 + 26)
  else if 48 ≤ c.toNat && c.toNat ≤ 57 then some (c.toNat - 48 + 52)
  else if c = '+' then some 62
  else if c = '/' then some 63
  else none

/-- Decode a whitespace- and padding-free base64 character sequence into
bytes, failing on any character outside the alphabet or a trailing group
of one character. -/
def b64DecodeList : List Char → Option (List Nat)
  | [] => some []
  | [_] => none
  | [c1, c2] =>
    match b64CharVal c1, b64CharVal c2 with
    | some v1, some v2 => some [v1 * 4 + v2 / 16]
    | _, _ => none
  | [c1, c2, c3] =>
    match b64CharVal c1, b64CharVal c2, b64CharVal c3 with
    | some v1, some v2, some v3 =>
      some [v1 * 4 + v2 / 16, (v2 % 16) * 16 + v3 / 4]
    | _, _, _ => none
  | c1 :: c2 :: c3 :: c4 :: rest =>
    match b64CharVal c1, b64CharVal c2, b64CharVal c3, b64CharVal c4,
        b64DecodeList rest with
    | some v1, some v2, some v3, some v4, some bs =>
      some ((v1 * 4 + v2 / 16) :: ((v2 % 16) * 16 + v3 / 4) ::
        ((v3 % 4) * 64 + v4) :: bs)
    | _, _, _, _, _ => none

/-- Padding removal of forgiving-base64: when the length is a multiple of
4, drop one or two trailing padding signs (code point 61). -/
def stripPad (cs : List Char) : List Char :=
  if cs.length % 4 = 0 then
    match cs.reverse with
    | c1 :: c2 :: rest =>
      if c1.toNat = 61 && c2.toNat = 61 then rest.reverse
      else if c1.toNat = 61 then (c2 :: rest).reverse
      else cs
    | [c1] => if c1.toNat = 61 then [] else cs
    | [] => cs
  else cs

/-- Model of the browser's `atob`, returning the decoded byte list or
`none` where `atob` throws `InvalidCharacterError`. -/
def atobF (s : String) : Option (List Nat) :=
  let cs := s.data.filter fun c => !(isB64Ws c)
  let cs := stripPad cs
  if cs.length % 4 = 1 then none else b64DecodeList cs

/-- Character `k` of the standard base64 alphabet. -/
def b64Char (k : Nat) : Char :=
  if k < 26 then Char.ofNat (65 + k)
  else if k < 52 then Char.ofNat (97 + (k - 26))
  else if k < 62 then Char.ofNat (48 + (k - 52))
  else if k = 62 then '+'
  else '/'

/-- Character `k` of the URL-safe base64 alphabet (RFC 4648 section 5):
as the standard alphabet but with minus and underscore for 62 and 63. -/
def b64urlChar (k : Nat) : Char :=
  if k < 62 then b64Char k
  else if k = 62 then Char.ofNat 45
  else Char.ofNat 95

/-- Standard-alphabet base64 encoding of a byte list, unpadded. -/
def b64EncodeChars : List Nat → List Char
  | [] => []
  | [a] => [b64Char (a / 4), b64Char ((a % 4) * 16)]
  | [a, b] =>
    [b64Char (a / 4), b64Char ((a % 4) * 16 + b / 16),
     b64Char ((b % 16) * 4)]
  | a :: b :: c :: rest =>
    b64Char (a / 4) :: b64Char ((a % 4) * 16 + b / 16) ::
    b64Char ((b % 16) * 4 + c / 64) :: b64Char (c % 64) ::
    b64EncodeChars rest

/-- Standard-alphabet unpadded base64 encoding, as a string. -/
def base64Encode (l : List Nat) : String := ⟨b64EncodeChars l⟩

/-- URL-safe unpadded base64 encoding of a byte list (the JWS encoding
the specification describes for the token's middle segment). -/
def b64urlEncodeChars : List Nat → List Char
  | [] => []
  | [a] => [b64urlChar (a / 4), b64urlChar ((a % 4) * 16)]
  | [a, b] =>
    [b64urlChar (a / 4), b64urlChar ((a % 4) * 16 + b / 16),
     b64urlChar ((b % 16) * 4)]
  | a :: b :: c :: rest =>
    b64urlChar (a / 4) :: b64urlChar ((a % 4) * 16 + b / 16) ::
    b64urlChar ((b % 16) * 4 + c / 64) :: b64urlChar (c % 64) ::
    b64urlEncodeChars rest

/-- URL-safe unpadded base64 encoding, as a string. -/
def base64urlEncode (l : List Nat) : String := ⟨b64urlEncodeChars l⟩

/-! ## JSON parsing (`JSON.parse` as `decodeAndSetUser` uses it)

`JSON.parse` is a platform builtin; the model below implements the full
JSON grammar over the byte strings `atob` produces (character codes
0-255): any top-level value, nested objects and arrays, strings with the
eight escape sequences and `\uXXXX` (pairing surrogate halves into one
code point), and the complete number grammar including the leading-zero
and lone-sign rejections. Acceptance therefore coincides with
`JSON.parse`. Two value-level fringes are outside the embedding: a lone
surrogate escape (unrepresentable in a Lean character) is decoded as the
replacement character, and numbers are kept exactly as mantissa times a
power of ten, so the IEEE-754 double rounding and exponential display of
extreme magnitudes are not reproduced — both are observable only through
the display coercion of exotic `sub`, `role` or `username` values and
are used by no theorem. -/

/-- JSON insignificant whitespace bytes. -/
def jsonWsByte (b : Nat) : Bool := b = 32 || b = 9 || b = 10 || b = 13

/-- Drop insignificant whitespace. -/
def skipWs (l : List Nat) : List Nat := l.dropWhile jsonWsByte

/-- JSON value. A number is stored as mantissa and base-10 exponent,
keeping the literal's exact value. -/
inductive JVal
  | obj : List (String × JVal) → JVal
  | arr : List JVal → JVal
  | str : String → JVal
  | num : Int → Int → JVal
  | bool : Bool → JVal
  | null : JVal

/-- Hexadecimal digit value of a byte, for string escapes. -/
def hexVal (b : Nat) : Option Nat :=
  if 48 ≤ b ∧ b ≤ 57 then some (b - 48)
  else if 65 ≤ b ∧ b ≤ 70 then some (b - 65 + 10)
  else if 97 ≤ b ∧ b ≤ 102 then some (b - 97 + 10)
  else none

/-- Prepend a decoded character to a string-parse result. -/
def strCons (c : Char) (r : Option (String × List Nat)) :
    Option (String × List Nat) :=
  match r with
  | some (s, rest) => some (⟨c :: s.data⟩, rest)
  | none => none

/-- Parse the remainder of a JSON string after the opening quote:
unescaped characters are the bytes 32-255 except quote and backslash;
escapes are the eight named ones and `\uXXXX`, where a high surrogate
followed by a low surrogate escape yields the combined code point and a
lone surrogate the replacement character. The fuel only needs to exceed
the input length, as every step consumes at least one byte. -/
def parseJStringCharsF : Nat → List Nat → Option (String × List Nat)
  | 0, _ => none
  | _, [] => none
  | fuel + 1, b :: rest =>
    if b = 34 then some ("", rest)
    else if b = 92 then
      match rest with
      | 34 :: r => strCons (Char.ofNat 34) (parseJStringCharsF fuel r)
      | 92 :: r => strCons (Char.ofNat 92) (parseJStringCharsF fuel r)
      | 47 :: r => strCons (Char.ofNat 47) (parseJStringCharsF fuel r)
      | 98 :: r => strCons (Char.ofNat 8) (parseJStringCharsF fuel r)
      | 102 :: r => strCons (Char.ofNat 12) (parseJStringCharsF fuel r)
      | 110 :: r => strCons (Char.ofNat 10) (parseJStringCharsF fuel r)
      | 114 :: r => strCons (Char.ofNat 13) (parseJStringCharsF fuel r)
      | 116 :: r => strCons (Char.ofNat 9) (parseJStringCharsF fuel r)
      | 117 :: h1 :: h2 :: h3 :: h4 :: r =>
        match hexVal h1, hexVal h2, hexVal h3, hexVal h4 with
        | some v1, some v2, some v3, some v4 =>
          let u := ((v1 * 16 + v2) * 16 + v3) * 16 + v4
          if 55296 ≤ u ∧ u ≤ 56319 then
            match r with
            | 92 :: 117 :: g1 :: g2 :: g3 :: g4 :: r2 =>
              match hexVal g1, hexVal g2, hexVal g3, hexVal g4 with
              | some w1, some w2, some w3, some w4 =>
                let w := ((w1 * 16 + w2) * 16 + w3) * 16 + w4
                if 56320 ≤ w ∧ w ≤ 57343 then
                  strCons
                    (Char.ofNat (65536 + (u - 55296) * 1024 + (w - 56320)))
                    (parseJStringCharsF fuel r2)
                else strCons (Char.ofNat 65533) (parseJStringCharsF fuel r)
              | _, _, _, _ =>
                strCons (Char.ofNat 65533) (parseJStringCharsF fuel r)
            | _ => strCons (Char.ofNat 65533) (parseJStringCharsF fuel r)
          else if 56320 ≤ u ∧ u ≤ 57343 then
            strCons (Char.ofNat 65533) (parseJStringCharsF fuel r)
          else strCons (Char.ofNat u) (parseJStringCharsF fuel r)
        | _, _, _, _ => none
      | _ => none
    else if 32 ≤ b then strCons (Char.ofNat b) (parseJStringCharsF fuel rest)
    else none

/-- String-body parser with sufficient fuel. -/
def parseJStringChars (l : List Nat) : Option (String × List Nat) :=
  parseJStringCharsF (l.length + 1) l

/-- Split off a leading run of decimal digits. -/
def spanDigits (l : List Nat) : List Nat × List Nat :=
  l.span fun b => 48 ≤ b && b ≤ 57

/-- Numeric value of a digit-byte run. -/
def digitsVal (ds : List Nat) : Nat :=
  ds.foldl (fun acc d => acc * 10 + (d - 48)) 0

/-- Parse a JSON number, full grammar: optional minus; `0` or a run not
starting with `0`; optional fraction requiring a digit; optional
exponent with optional sign requiring a digit. Returns the mantissa
(all digits, sign applied) and the base-10 exponent. -/
def parseJNumber (l : List Nat) : Option ((Int × Int) × List Nat) :=
  let p : Bool × List Nat := match l with
    | 45 :: r => (true, r)
    | _ => (false, l)
  match spanDigits p.2 with
  | ([], _) => none
  | (d :: ds, r1) =>
    if d = 48 && decide (ds ≠ []) then none
    else
      let step2 : Option (List Nat × List Nat) := match r1 with
        | 46 :: rf =>
          match spanDigits rf with
          | ([], _) => none
          | (fs, r2) => some (fs, r2)
        | _ => some ([], r1)
      match step2 with
      | none => none
      | some (fracDigits, r2) =>
        let step3 : Option (Int × List Nat) := match r2 with
          | 101 :: 45 :: re | 69 :: 45 :: re =>
            match spanDigits re with
            | ([], _) => none
            | (es, r3) => some (-(digitsVal es : Int), r3)
          | 101 :: 43 :: re | 69 :: 43 :: re =>
            match spanDigits re with
            | ([], _) => none
            | (es, r3) => some ((digitsVal es : Int), r3)
          | 101 :: re | 69 :: re =>
            match spanDigits re with
            | ([], _) => none
            | (es, r3) => some ((digitsVal es : Int), r3)
          | _ => some (0, r2)
        match step3 with
        | none => none
        | some (expVal, r3) =>
          let mantNat := digitsVal (d :: ds ++ fracDigits)
          let mant : Int := if p.1 then -(mantNat : Int) else (mantNat : Int)
          some ((mant, expVal - fracDigits.length), r3)

mutual

/-- Parse one JSON value. Fuelled: every mutual call is made on a strict
suffix of the enclosing call's input (a bracket, key or comma has been
consumed), or on an equal-length input at most once in a row, so any
fuel exceeding twice the input length is sufficient. -/
def parseJValF : Nat → List Nat → Option (JVal × List Nat)
  | 0, _ => none
  | fuel + 1, l =>
    match l with
    | 116 :: 114 :: 117 :: 101 :: rest => some (.bool true, rest)
    | 102 :: 97 :: 108 :: 115 :: 101 :: rest => some (.bool false, rest)
    | 110 :: 117 :: 108 :: 108 :: rest => some (.null, rest)
    | 34 :: rest =>
      match parseJStringChars rest with
      | some (s, r) => some (.str s, r)
      | none => none
    | 123 :: rest =>
      match skipWs rest with
      | 125 :: r2 => some (.obj [], r2)
      | r1 =>
        match parseJMembersF fuel r1 with
        | some (ms, r2) =>
          match skipWs r2 with
          | 125 :: r3 => some (.obj ms, r3)
          | _ => none
        | none => none
    | 91 :: rest =>
      match skipWs rest with
      | 93 :: r2 => some (.arr [], r2)
      | r1 =>
        match parseJElemsF fuel r1 with
        | some (vs, r2) =>
          match skipWs r2 with
          | 93 :: r3 => some (.arr vs, r3)
          | _ => none
        | none => none
    | _ =>
      match parseJNumber l with
      | some (me, r) => some (.num me.1 me.2, r)
      | none => none

/-- Parse the comma-separated members of an object, in source order. -/
def parseJMembersF : Nat → List Nat → Option (List (String × JVal) × List Nat)
  | 0, _ => none
  | fuel + 1, l =>
    match skipWs l with
    | 34 :: rest =>
      match parseJStringChars rest with
      | none => none
      | some (k, r1) =>
        match skipWs r1 with
        | 58 :: r2 =>
          match parseJValF fuel (skipWs r2) with
          | none => none
          | some (v, r3) =>
            match skipWs r3 with
            | 44 :: r4 =>
              match parseJMembersF fuel r4 with
              | some (ms, r5) => some ((k, v) :: ms, r5)
              | none => none
            | r4 => some ([(k, v)], r4)
        | _ => none
    | _ => none

/-- Parse the comma-separated elements of an array. -/
def parseJElemsF : Nat → List Nat → Option (List JVal × List Nat)
  | 0, _ => none
  | fuel + 1, l =>
    match parseJValF fuel (skipWs l) with
    | none => none
    | some (v, r1) =>
      match skipWs r1 with
      | 44 :: r2 =>
        match parseJElemsF fuel r2 with
        | some (vs, r3) => some (v :: vs, r3)
        | none => none
      | r2 => some ([v], r2)

end

/-- Model of `JSON.parse` on a byte string: one value with surrounding
insignificant whitespace; `none` where `JSON.parse` throws. -/
def jsonParse (l : List Nat) : Option JVal :=
  match parseJValF (2 * l.length + 2) (skipWs l) with
  | some (v, rest) => if (skipWs rest).isEmpty then some v else none
  | none => none

/-! ## `decodeAndSetUser` (app.js 116-127) -/

/-- Drop trailing zero digits of a fraction rendering. -/
def stripTrailingZeros (s : List Char) : List Char :=
  (s.reverse.dropWhile (fun c => c = Char.ofNat 48)).reverse

/-- Left-pad a digit rendering with zeros to the given width. -/
def padLeftZeros (s : List Char) (k : Nat) : List Char :=
  List.replicate (k - s.length) (Char.ofNat 48) ++ s

/-- JavaScript display of a parsed JSON number (mantissa times a power
of ten): exact decimal rendering, integral values as plain integers and
fractional values with the trailing zeros stripped. The IEEE-754
rounding and exponential display of extreme magnitudes are outside the
embedding (see the section comment). -/
def jsNumToString (m e : Int) : String :=
  if 0 ≤ e then toString (m * (10 : Int) ^ e.toNat)
  else
    let k := (-e).toNat
    let sign : String := if m < 0 then "-" else ""
    let a := m.natAbs
    let ip := a / 10 ^ k
    let frDigits :=
      stripTrailingZeros (padLeftZeros (toString (a % 10 ^ k)).data k)
    if frDigits.isEmpty then sign ++ toString ip
    else sign ++ toString ip ++ "." ++ String.mk frDigits

mutual

/-- JavaScript `String(v)` of a parsed JSON value. -/
def jsValToString : JVal → String
  | .obj _ => "[object Object]"
  | .arr items => jsArrJoin items
  | .str s => s
  | .num m e => jsNumToString m e
  | .bool true => "true"
  | .bool false => "false"
  | .null => "null"

/-- JavaScript array-to-string: elements joined by commas, `null`
elements rendering as empty. -/
def jsArrJoin : List JVal → String
  | [] => ""
  | [.null] => ""
  | [v] => jsValToString v
  | .null :: rest => "," ++ jsArrJoin rest
  | v :: rest => jsValToString v ++ "," ++ jsArrJoin rest

end

/-- Own-property lookup on a parsed JSON object: the last member with
the given key wins, as with duplicate keys in `JSON.parse`. -/
def jLookup (ms : List (String × JVal)) (k : String) : Option JVal :=
  match ms with
  | [] => none
  | (k2, v) :: rest =>
    match jLookup rest k with
    | some v2 => some v2
    | none => if k2 = k then some v else none

/-- JavaScript property access `v[k]` for the keys the client reads:
defined members of an object, `undefined` (`none`) on every other
value. (`null` is handled separately, as access on it throws.) -/
def jGet (v : JVal) (k : String) : Option JVal :=
  match v with
  | .obj ms => jLookup ms k
  | _ => none

/-- JavaScript string coercion of a possibly-absent property value, as
`parseInt(x)` and template interpolation apply it. -/
def jsToStr (v : Option JVal) : String :=
  match v with
  | none => "undefined"
  | some v => jsValToString v

/-- JavaScript `x || fb` on a property value for the display fields:
`undefined`, `null`, `false`, numeric zero and the empty string fall
through to the default; a truthy non-string value is recorded through
its display coercion. -/
def jsOrVal (v : Option JVal) (fb : String) : String :=
  match v with
  | none => fb
  | some .null => fb
  | some (.bool false) => fb
  | some (.bool true) => "true"
  | some (.str s) => if s = "" then fb else s
  | some (.num m e) => if m = 0 then fb else jsNumToString m e
  | some (.obj _) => "[object Object]"
  | some (.arr items) => jsArrJoin items

/-- Leading decimal-digit run of `parseInt`, `none` when there is none. -/
def parseIntDigits (cs : List Char) : Option Nat :=
  let ds := cs.takeWhile fun c => c.isDigit
  if ds.isEmpty then none
  else some (ds.foldl (fun acc c => acc * 10 + (c.toNat - 48)) 0)

/-- JavaScript `parseInt(s)` in base 10: skip leading whitespace, accept
an optional sign, read leading digits; `none` models `NaN`. -/
def jsParseInt (s : String) : Option Int :=
  let cs := s.data.dropWhile fun c => c.isWhitespace
  match cs with
  | c :: rest =>
    if c.toNat = 45 then (parseIntDigits rest).map fun n => -(n : Int)
    else if c = '+' then (parseIntDigits rest).map fun n => (n : Int)
    else (parseIntDigits cs).map fun n => (n : Int)
  | [] => none

/-- Identity the client derives for display: `state.user`. `user_id` is
`parseInt(payload.sub)` with `none` modelling `NaN`. -/
structure UserIdent where
  user_id : Option Int
  role : String
  username : String
deriving Repr, DecidableEq

/-- Split a character list at every dot, as `token.split('.')` does. -/
def jsSplitDot : List Char → List (List Char)
  | [] => [[]]
  | c :: rest =>
    let r := jsSplitDot rest
    if c = Char.ofNat 46 then [] :: r
    else
      match r with
      | s :: ss => (c :: s) :: ss
      | [] => [[c]]

/-- Stage `atob(token.split('.')[1])` of `decodeAndSetUser`: take the
second dot-separated segment and decode it. A missing second segment
makes `split('.')[1]` undefined, which `atob` coerces to the string
`undefined` (which fails to decode). -/
def atobMiddle (token : String) : Option (List Nat) :=
  match (jsSplitDot token.data)[1]? with
  | some s => atobF (String.mk s)
  | none => atobF "undefined"

/-- Model of `decodeAndSetUser(token)` (app.js 116-127): split on dots,
decode the second segment with `atob`, `JSON.parse` the result, and
build `state.user` from `sub`, `role` and `username`; any failure
inside the `try` leaves the identity unset (`none`). A payload parsing
to JSON `null` also leaves it unset, as the property access on `null`
throws inside the `try`; on any other payload the accesses yield the
member or `undefined` and the identity is set. -/
def decodeAndSetUser (token : String) : Option UserIdent :=
  match atobMiddle token with
  | none => none
  | some bytes =>
    match jsonParse bytes with
    | none => none
    | some payload =>
      match payload with
      | .null => none
      | _ =>
        let subV := jGet payload "sub"
        some
          { user_id := jsParseInt (jsToStr subV),
            role := jsOrVal (jGet payload "role") "user",
            username := jsOrVal (jGet payload "username")
              ("User " ++ jsToStr subV) }

/-! # Theorems -/

/-- C3: every change to the search query through the debounced search
handler and every genre-chip click set `page` to 1 before calling
`loadBooks`, so each list fetch the two handlers issue carries
`page = 1`. -/
theorem discover_filters_reset_page (st : DiscoverState) (v g : String) :
    (searchTimerBody st v).1.page = 1 ∧
    ((searchTimerBody st v).2.all fun f => f.page == 1) = true ∧
    (genreChipHandler st g).1.page = 1 ∧
    ((genreChipHandler st g).2.all fun f => f.page == 1) = true := by
  simp [searchTimerBody, genreChipHandler, loadBooksFetch]

/-- C5: a click on an already-active Like or Bookmark button is a
client-side no-op with zero network calls; otherwise one write is issued
and the active state and label flip only on server confirmation, while a
failed write leaves the button unchanged and shows only an error
notification. -/
theorem like_bookmark_idempotent (l : String) (ok : Bool) :
    likeBtnClick ⟨true, l⟩ ok = (⟨true, l⟩, 0, false) ∧
    likeBtnClick ⟨false, l⟩ true = (⟨true, " Liked"⟩, 1, false) ∧
    likeBtnClick ⟨false, l⟩ false = (⟨false, l⟩, 1, true) ∧
    bookmarkBtnClick ⟨true, l⟩ ok = (⟨true, l⟩, 0, false) ∧
    bookmarkBtnClick ⟨false, l⟩ true = (⟨true, " Bookmarked"⟩, 1, false) ∧
    bookmarkBtnClick ⟨false, l⟩ false = (⟨false, l⟩, 1, true) := by
  simp [likeBtnClick, bookmarkBtnClick]

/-- C6: clicking the star equal to the confirmed rating makes no network
call; a differing value issues exactly one rating write and the display
updates only on success, so clicking the same value twice in a row makes
exactly one network call in total, on the first click. -/
theorem star_rating_single_call (s : StarState) (v : Nat)
    (h : v ≠ s.rating) :
    starClick s s.rating true = (s, 0, false) ∧
    starClick s v true =
      (⟨v, "You rated " ++ toString v ++ "/5"⟩, 1, false) ∧
    starClick s v false = (s, 1, true) ∧
    (starClick (starClick s v true).1 v true).2.1 = 0 ∧
    (starClick s v true).2.1 +
      (starClick (starClick s v true).1 v true).2.1 = 1 := by
  simp [starClick, h]

/-- C6 witness: rating 4 from an unrated state issues one call, and a
second click on 4 issues none. -/
theorem star_rating_single_call_witness :
    starClick ⟨0, "Click to rate"⟩ 4 true =
      (⟨4, "You rated " ++ toString 4 ++ "/5"⟩, 1, false) ∧
    (starClick (starClick ⟨0, "Click to rate"⟩ 4 true).1 4 true).2.1 = 0 :=
  ⟨(star_rating_single_call ⟨0, "Click to rate"⟩ 4 (by decide)).2.1,
   (star_rating_single_call ⟨0, "Click to rate"⟩ 4 (by decide)).2.2.2.1⟩

/-- C10: `api.refreshToken` never throws; with no stored refresh token,
on a transport exception, and on a non-ok response it returns `false`
and leaves both the in-memory access token and the stored refresh token
unchanged; only a successful refresh replaces both and returns `true`. -/
theorem refreshToken_failure_safe (st : Session) (w : RefreshWire) :
    ((refreshTokenRun st w).1 = false → (refreshTokenRun st w).2.1 = st) ∧
    (st.refreshStored = none → refreshTokenRun st w = (false, st, 0)) ∧
    (w = .exn → (refreshTokenRun st w).1 = false) ∧
    (∀ b, w = .resp false b → (refreshTokenRun st w).1 = false) ∧
    (∀ d r, st.refreshStored = some r → w = .resp true (some d) →
      refreshTokenRun st w =
        (true, ⟨some d.access_token, some d.refresh_token⟩, 1)) ∧
    ((refreshTokenRun st w).1 = true →
      ∃ d, w = .resp true (some d) ∧
        (refreshTokenRun st w).2.1 =
          ⟨some d.access_token, some d.refresh_token⟩) := by
  obtain ⟨tok, stored⟩ := st
  cases stored with
  | none => cases w <;> simp [refreshTokenRun]
  | some r =>
    cases w with
    | exn => simp [refreshTokenRun]
    | resp ok body =>
      cases ok <;> cases body <;> simp [refreshTokenRun]

/-- C10 witness: a successful refresh replaces both tokens and returns
`true`; a missing stored token returns `false` without a network call. -/
theorem refreshToken_failure_safe_witness :
    refreshTokenRun ⟨some "t", some "r"⟩ (.resp true (some ⟨"t2", "r2"⟩)) =
      (true, ⟨some "t2", some "r2"⟩, 1) ∧
    refreshTokenRun ⟨some "t", none⟩ .exn = (false, ⟨some "t", none⟩, 0) :=
  ⟨(refreshToken_failure_safe ⟨some "t", some "r"⟩
      (.resp true (some ⟨"t2", "r2"⟩))).2.2.2.2.1 ⟨"t2", "r2"⟩ "r" rfl rfl,
   (refreshToken_failure_safe ⟨some "t", none⟩ .exn).2.1 rfl⟩

/-- C2: a non-2xx response with a status other than 401 never invokes
the refresh protocol: `api.request` issues no further network call,
leaves the session untouched, and raises an error whose message is the
server payload's human-readable message, falling back to a generic
status message when the body is absent or unparseable. -/
theorem request_non401_rejected (st : Session) (r : Response)
    (rw : RefreshWire) (retryW : FetchResult)
    (h401 : r.status ≠ 401) (hok : okStatus r.status = false) :
    apiRequest st (.resp r) rw retryW =
      ⟨.thrownMsg ((serverMsg r.body).getD ("Error " ++ toString r.status)),
       st, [.fetchOriginal st.token]⟩ := by
  cases hb : r.body with
  | unparseable => simp [apiRequest, h401, hok, hb, serverMsg, jsOr]
  | obj d =>
    cases d with
    | none => simp [apiRequest, h401, hok, hb, serverMsg, jsOr]
    | some s =>
      by_cases hs : s = "" <;>
        simp [apiRequest, h401, hok, hb, serverMsg, jsOr, hs]

/-- C2 witness: a 403 with no structured body is surfaced with the
generic status message, with no refresh call and no retry. -/
theorem request_non401_rejected_witness :
    apiRequest ⟨some "t", some "r"⟩ (.resp ⟨403, .obj none⟩) .exn .exn =
      ⟨.thrownMsg ((serverMsg (.obj none)).getD ("Error " ++ toString 403)),
       ⟨some "t", some "r"⟩, [.fetchOriginal (some "t")]⟩ :=
  request_non401_rejected ⟨some "t", some "r"⟩ ⟨403, .obj none⟩ .exn .exn
    (by decide) (by decide)

/-- C8: each keystroke supersedes the single pending debounce timer slot
and arms a fresh timer without fetching; a timer firing issues exactly
one fetch carrying the input's current (hence last typed) value with
page 1 and empties the slot; typing "fantasy" and then, within the
debounce window, "fantasy novel" yields exactly one books request, whose
URL carries `search=fantasy%20novel`, and no request for "fantasy". -/
theorem search_debounce_single_fetch (st : DebounceState) (s : String) :
    debounceStep st (.keystroke s) =
      { st with inputValue := s, pendingTimer := true } ∧
    (debounceStep st .timerFire).fetches =
      (if st.pendingTimer then
        st.fetches ++ [⟨1, st.disc.pageSize, jsTrim st.inputValue,
          st.disc.genreFilter⟩]
      else st.fetches) ∧
    (debounceStep st .timerFire).pendingTimer = false ∧
    ((debounceRun ⟨"", false, ⟨1, 20, "", ""⟩, []⟩
        [.keystroke "fantasy", .keystroke "fantasy novel",
         .timerFire]).fetches.map booksFetchUrl =
      ["/books?page=1&page_size=20&search=fantasy%20novel"]) ∧
    ((debounceRun ⟨"", false, ⟨1, 20, "", ""⟩, []⟩
        [.keystroke "fantasy", .keystroke "fantasy novel",
         .timerFire]).fetches.countP fun f => f.search == "fantasy") = 0 ∧
    (debounceRun ⟨"", false, ⟨1, 20, "", ""⟩, []⟩
        [.keystroke "fantasy", .keystroke "fantasy novel",
         .timerFire]).fetches.length = 1 := by
  refine ⟨rfl, ?_, ?_, ?_, ?_, ?_⟩
  · cases hp : st.pendingTimer <;>
      simp [debounceStep, searchTimerBody, loadBooksFetch, hp]
  · cases hp : st.pendingTimer <;>
      simp [debounceStep, searchTimerBody, loadBooksFetch, hp]
  · decide
  · decide
  · decide

/-- A successful `refreshToken` run has issued exactly one refresh
request. -/
theorem refreshTokenRun_posts_of_true (st : Session) (w : RefreshWire)
    (h : (refreshTokenRun st w).1 = true) :
    (refreshTokenRun st w).2.2 = 1 := by
  obtain ⟨tok, stored⟩ := st
  cases stored with
  | none => simp [refreshTokenRun] at h
  | some r =>
    cases w with
    | exn => simp [refreshTokenRun] at h
    | resp ok body =>
      cases ok <;> cases body <;> simp_all [refreshTokenRun]

/-- C1 counterexample: on a 401 followed by a successful refresh and a
retried request that fails with 500, `api.request` raises the retry's
own error message and keeps the refreshed session — the session is not
torn down and no session-expired error reaches the caller. -/
theorem request_retry_failure_counterexample :
    apiRequest ⟨some "t", some "r"⟩ (.resp ⟨401, .obj none⟩)
        (.resp true (some ⟨"t2", "r2"⟩)) (.resp ⟨500, .obj (some "boom")⟩) =
      ⟨.thrownMsg "boom", ⟨some "t2", some "r2"⟩,
       [.fetchOriginal (some "t"), .postRefresh,
        .fetchRetry (some "t2")]⟩ ∧
    (apiRequest ⟨some "t", some "r"⟩ (.resp ⟨401, .obj none⟩)
        (.resp true (some ⟨"t2", "r2"⟩))
        (.resp ⟨500, .obj (some "boom")⟩)).finalState.token ≠ none ∧
    (apiRequest ⟨some "t", some "r"⟩ (.resp ⟨401, .obj none⟩)
        (.resp true (some ⟨"t2", "r2"⟩))
        (.resp ⟨500, .obj (some "boom")⟩)).outcome ≠
      .thrownMsg "Session expired" := by
  refine ⟨rfl, ?_, ?_⟩ <;> decide

/-- C1 amended: a 401 response triggers at most one refresh request and
at most one retried request, bounding the call to two round trips and
excluding any 401 loop. If the refresh fails, the session is cleared and
a session-expired error is raised with no retry; if the refresh
succeeds, the original request is retried exactly once carrying the new
token, the retry's result or failure is returned to the caller, and the
session keeps the refreshed tokens — a failed retry raises its error
without tearing the session down. -/
theorem request_401_single_refresh (st : Session) (r : Response)
    (rw : RefreshWire) (retryW : FetchResult) (h401 : r.status = 401) :
    (apiRequest st (.resp r) rw retryW).calls.count .postRefresh ≤ 1 ∧
    ((apiRequest st (.resp r) rw retryW).calls.countP
      fun c => match c with | .fetchRetry _ => true | _ => false) ≤ 1 ∧
    ((refreshTokenRun st rw).1 = false →
      apiRequest st (.resp r) rw retryW =
        ⟨.thrownMsg "Session expired", ⟨none, none⟩,
         .fetchOriginal st.token ::
           (if (refreshTokenRun st rw).2.2 = 1 then [.postRefresh]
            else [])⟩) ∧
    ((refreshTokenRun st rw).1 = true →
      apiRequest st (.resp r) rw retryW =
        ⟨retryOutcomeOf retryW, (refreshTokenRun st rw).2.1,
         [.fetchOriginal st.token, .postRefresh,
          .fetchRetry (refreshTokenRun st rw).2.1.token]⟩) := by
  have h204 : ¬ (401 : Nat) = 204 := by decide
  have hok401 : okStatus 401 = false := by decide
  cases href : (refreshTokenRun st rw).1 with
  | false =>
    have hmain : apiRequest st (.resp r) rw retryW =
        ⟨.thrownMsg "Session expired", ⟨none, none⟩,
         .fetchOriginal st.token ::
           (if (refreshTokenRun st rw).2.2 = 1 then [.postRefresh]
            else [])⟩ := by
      simp only [apiRequest, h401, if_true, href, if_pos rfl]
      simp [href]
    refine ⟨?_, ?_, fun _ => hmain, fun h => absurd h (by decide)⟩
    · rw [hmain]
      by_cases hpost : (refreshTokenRun st rw).2.2 = 1 <;>
        simp [hpost, List.count_cons]
    · rw [hmain]
      by_cases hpost : (refreshTokenRun st rw).2.2 = 1 <;>
        simp [hpost, List.countP_cons]
  | true =>
    have hposts := refreshTokenRun_posts_of_true st rw href
    have hmain : apiRequest st (.resp r) rw retryW =
        ⟨retryOutcomeOf retryW, (refreshTokenRun st rw).2.1,
         [.fetchOriginal st.token, .postRefresh,
          .fetchRetry (refreshTokenRun st rw).2.1.token]⟩ := by
      cases retryW with
      | exn => simp [apiRequest, h401, href, hposts, retryOutcomeOf]
      | resp r2 =>
        by_cases hok2 : okStatus r2.status = true
        · simp [apiRequest, h401, href, hposts, retryOutcomeOf, hok2]
        · cases hb : r2.body <;>
            simp [apiRequest, h401, href, hposts, retryOutcomeOf, hok2, hb]
    refine ⟨?_, ?_, fun h => absurd h (by decide), fun _ => hmain⟩
    · rw [hmain]; simp [List.count_cons]
    · rw [hmain]; simp [List.countP_cons]

/-- The `totalPages` formula of `renderPagination` is the mathematical
ceiling of `total / pageSize`. -/
theorem totalPagesOf_eq_ceil (total ps : Nat) (hps : 0 < ps) :
    totalPagesOf total ps = ⌈(total : ℚ) / (ps : ℚ)⌉₊ := by
  have hq : (0 : ℚ) < (ps : ℚ) := by exact_mod_cast hps
  have hdef : totalPagesOf total ps = total ⌈/⌉ ps := rfl
  rw [hdef]
  apply le_antisymm
  · rw [ceilDiv_le_iff_le_mul hps]
    have h1 : ((total : ℚ)) ≤ (⌈(total : ℚ) / (ps : ℚ)⌉₊ : ℚ) * ps :=
      (div_le_iff₀ hq).1 (Nat.le_ceil _)
    have h2 : total ≤ ⌈(total : ℚ) / (ps : ℚ)⌉₊ * ps := by exact_mod_cast h1
    rw [Nat.mul_comm]
    exact h2
  · rw [Nat.ceil_le, div_le_iff₀ hq]
    have h2 : total ≤ ps * (total ⌈/⌉ ps) := by
      have := le_smul_ceilDiv (b := total) hps
      simpa [smul_eq_mul] using this
    have h3 : (total : ℚ) ≤ ((ps * (total ⌈/⌉ ps) : Nat) : ℚ) := by
      exact_mod_cast h2
    push_cast at h3
    linarith

/-- C4: `renderPagination` computes `totalPages` as the ceiling of
`total / pageSize`; no control is shown exactly when `totalPages ≤ 1`;
when shown, Previous is disabled exactly when `page ≤ 1` and Next
exactly when `page ≥ totalPages`, and every enabled button targets a
page between 1 and `totalPages`, so the UI never offers a request beyond
the last page. -/
theorem pagination_bounds (total pageSize page : Nat)
    (hps : 0 < pageSize) :
    totalPagesOf total pageSize = ⌈(total : ℚ) / (pageSize : ℚ)⌉₊ ∧
    ((renderPagination total pageSize page).shown = false ↔
      totalPagesOf total pageSize ≤ 1) ∧
    ((renderPagination total pageSize page).shown = true →
      ((renderPagination total pageSize page).prevDisabled = true ↔
        page ≤ 1) ∧
      ((renderPagination total pageSize page).nextDisabled = true ↔
        totalPagesOf total pageSize ≤ page)) ∧
    ((renderPagination total pageSize page).shown = true →
      (renderPagination total pageSize page).prevDisabled = false →
      (renderPagination total pageSize page).prevTarget = page - 1 ∧
      1 ≤ (renderPagination total pageSize page).prevTarget) ∧
    ((renderPagination total pageSize page).shown = true →
      (renderPagination total pageSize page).nextDisabled = false →
      (renderPagination total pageSize page).nextTarget = page + 1 ∧
      (renderPagination total pageSize page).nextTarget ≤
        totalPagesOf total pageSize) := by
  refine ⟨totalPagesOf_eq_ceil total pageSize hps, ?_, ?_, ?_, ?_⟩ <;>
    by_cases hshow : totalPagesOf total pageSize ≤ 1 <;>
      simp only [renderPagination, totalPagesOf] at * <;>
        simp [hshow] <;> omega

/-- C4 witness: with 45 books at page size 20 there are 3 pages; at page
3 the Next button is disabled, and at page 2 it is enabled and targets
page 3, never beyond. -/
theorem pagination_bounds_witness :
    totalPagesOf 45 20 = ⌈(45 : ℚ) / (20 : ℚ)⌉₊ ∧
    ((renderPagination 45 20 3).nextDisabled = true ↔
      totalPagesOf 45 20 ≤ 3) ∧
    ((renderPagination 45 20 2).nextTarget = 2 + 1 ∧
      (renderPagination 45 20 2).nextTarget ≤ totalPagesOf 45 20) :=
  ⟨(pagination_bounds 45 20 3 (by decide)).1,
   ((pagination_bounds 45 20 3 (by decide)).2.2.1 (by decide)).2,
   (pagination_bounds 45 20 2 (by decide)).2.2.2.2 (by decide) (by decide)⟩

/-- Membership in the JavaScript-Set deduplication: an element survives
exactly when it occurs in the input and was not already seen. -/
theorem mem_jsSetDedup (l : List Nat) :
    ∀ (seen : List Nat) (x : Nat),
      x ∈ jsSetDedup seen l ↔ x ∈ l ∧ x ∉ seen := by
  induction l with
  | nil => intro seen x; simp [jsSetDedup]
  | cons y ys ih =>
    intro seen x
    by_cases hy : y ∈ seen
    · simp only [jsSetDedup, if_pos hy, ih]
      constructor
      · rintro ⟨hx, hns⟩; exact ⟨List.mem_cons_of_mem _ hx, hns⟩
      · rintro ⟨hx, hns⟩
        rcases List.mem_cons.1 hx with rfl | hx
        · exact absurd hy hns
        · exact ⟨hx, hns⟩
    · simp only [jsSetDedup, if_neg hy, List.mem_cons, ih]
      constructor
      · rintro (rfl | ⟨hx, hns⟩)
        · exact ⟨Or.inl rfl, hy⟩
        · exact ⟨Or.inr hx, fun hs => hns (Or.inr hs)⟩
      · rintro ⟨rfl | hx, hns⟩
        · exact Or.inl rfl
        · by_cases hxy : x = y
          · exact Or.inl hxy
          · exact Or.inr ⟨hx, by simp [List.mem_cons, hxy, hns]⟩

/-- The JavaScript-Set deduplication returns a duplicate-free list. -/
theorem jsSetDedup_nodup (l : List Nat) :
    ∀ seen : List Nat, (jsSetDedup seen l).Nodup := by
  induction l with
  | nil => intro seen; simp [jsSetDedup]
  | cons y ys ih =>
    intro seen
    by_cases hy : y ∈ seen
    · simpa [jsSetDedup, hy] using ih seen
    · simp only [jsSetDedup, if_neg hy, List.nodup_cons]
      refine ⟨fun hmem => ?_, ih (y :: seen)⟩
      exact ((mem_jsSetDedup ys (y :: seen) y).1 hmem).2 (List.mem_cons_self _ _)

/-- C9 counterexample: over a history holding one `like` row for book 3,
selecting the `like` tab issues a `GET /books/3` network call — not zero
network calls. -/
theorem library_tab_fetch_counterexample :
    renderLibraryListCalls [⟨3, "like", none⟩] "like" = ["/books/3"] ∧
    renderLibraryListCalls [⟨3, "like", none⟩] "like" ≠ [] := by
  refine ⟨?_, ?_⟩ <;> decide

/-- C9 amended: one Library view entry fetches the interaction history
exactly once, and tab selections filter that fetched list client-side
without any further interaction-history request — but each selection
re-runs title enrichment, issuing one `GET /books/{id}` per distinct
book id among the filtered rows. -/
theorem library_single_history_fetch (history : List InteractionRow)
    (tabs : List String) (f : String) :
    (renderLibrarySession history tabs).1 = 1 ∧
    ((libraryFiltered history f).isEmpty = false →
      renderLibraryListCalls history f =
        (jsSetDedup [] ((libraryFiltered history f).map
          InteractionRow.book_id)).map
          fun id => "/books/" ++ toString id) ∧
    (jsSetDedup [] ((libraryFiltered history f).map
      InteractionRow.book_id)).Nodup ∧
    (∀ id, id ∈ jsSetDedup [] ((libraryFiltered history f).map
        InteractionRow.book_id) ↔
      id ∈ (libraryFiltered history f).map InteractionRow.book_id) ∧
    (∀ c ∈ renderLibraryListCalls history f,
      ∃ id, id ∈ (libraryFiltered history f).map InteractionRow.book_id ∧
        c = "/books/" ++ toString id) := by
  refine ⟨rfl, ?_, jsSetDedup_nodup _ _, ?_, ?_⟩
  · intro hne
    simp [renderLibraryListCalls, hne, enrichLibraryItems]
  · intro id
    simpa using mem_jsSetDedup ((libraryFiltered history f).map
      InteractionRow.book_id) [] id
  · intro c hc
    rcases hemp : (libraryFiltered history f).isEmpty with hfalse | htrue
    · rw [renderLibraryListCalls] at hc
      simp only [hemp] at hc
      rw [enrichLibraryItems] at hc
      rcases List.mem_map.1 hc with ⟨id, hid, rfl⟩
      exact ⟨id, ((mem_jsSetDedup _ [] id).1 hid).1, rfl⟩
    · rw [renderLibraryListCalls] at hc
      simp [hemp] at hc

/-- C9 witness: a one-row history with a `like` tab click — one history
fetch, and enrichment calls equal to the deduplicated book-id fetches. -/
theorem library_single_history_fetch_witness :
    (renderLibrarySession [⟨3, "like", none⟩] ["like"]).1 = 1 ∧
    renderLibraryListCalls [⟨3, "like", none⟩] "like" =
      (jsSetDedup [] ((libraryFiltered [⟨3, "like", none⟩] "like").map
        InteractionRow.book_id)).map
        fun id => "/books/" ++ toString id :=
  ⟨(library_single_history_fetch [⟨3, "like", none⟩] ["like"] "like").1,
   (library_single_history_fetch [⟨3, "like", none⟩] ["like"] "like").2.1
     (by decide)⟩

/-! ## Base64 facts for `decodeAndSetUser` -/

/-- Decoding inverts the standard-alphabet encoder on every in-range
index. -/
theorem b64CharVal_b64Char : ∀ k < 64, b64CharVal (b64Char k) = some k := by
  decide

/-- Alphabet characters are not ASCII whitespace. -/
theorem b64Char_not_ws : ∀ k < 64, isB64Ws (b64Char k) = false := by
  decide

/-- Alphabet characters are not the padding sign. -/
theorem b64Char_ne_pad : ∀ k < 64, (b64Char k).toNat ≠ 61 := by
  decide

/-- Alphabet characters are not the dot separator. -/
theorem b64Char_ne_dot : ∀ k < 64, b64Char k ≠ Char.ofNat 46 := by
  decide

/-- Every character the encoder can emit equals `b64Char k` for some
in-range `k` (out-of-range indices collapse onto the final alphabet
character). -/
theorem b64Char_surj (m : Nat) : ∃ k, k < 64 ∧ b64Char m = b64Char k := by
  by_cases h : m < 64
  · exact ⟨m, h, rfl⟩
  · refine ⟨63, by omega, ?_⟩
    have h1 : ¬ m < 26 := by omega
    have h2 : ¬ m < 52 := by omega
    have h3 : ¬ m < 62 := by omega
    have h4 : ¬ m = 62 := by omega
    simp [b64Char, h1, h2, h3, h4]

/-- Every character of an encoded byte list is an alphabet character. -/
theorem mem_b64EncodeChars : ∀ (l : List Nat) (c : Char),
    c ∈ b64EncodeChars l → ∃ k, k < 64 ∧ c = b64Char k := by
  intro l
  induction l using b64EncodeChars.induct with
  | case1 =>
    intro c hc; simp [b64EncodeChars] at hc
  | case2 a =>
    intro c hc
    simp only [b64EncodeChars, List.mem_cons, List.not_mem_nil,
      or_false] at hc
    rcases hc with rfl | rfl
    · exact b64Char_surj _
    · exact b64Char_surj _
  | case3 a b =>
    intro c hc
    simp only [b64EncodeChars, List.mem_cons, List.not_mem_nil,
      or_false] at hc
    rcases hc with rfl | rfl | rfl
    · exact b64Char_surj _
    · exact b64Char_surj _
    · exact b64Char_surj _
  | case4 a b cc rest ih =>
    intro c hc
    simp only [b64EncodeChars, List.mem_cons] at hc
    rcases hc with rfl | rfl | rfl | rfl | hmem
    · exact b64Char_surj _
    · exact b64Char_surj _
    · exact b64Char_surj _
    · exact b64Char_surj _
    · exact ih c hmem

/-- The encoder's output length is never 1 modulo 4. -/
theorem b64EncodeChars_length_mod (l : List Nat) :
    (b64EncodeChars l).length % 4 ≠ 1 := by
  induction l using b64EncodeChars.induct with
  | case1 => simp [b64EncodeChars]
  | case2 a => simp [b64EncodeChars]
  | case3 a b => simp [b64EncodeChars]
  | case4 a b cc rest ih =>
    simp only [b64EncodeChars, List.length_cons]
    omega

/-- Decoding the standard-alphabet encoding of byte values below 256
returns exactly the original bytes. -/
theorem b64DecodeList_encode : ∀ l : List Nat, (∀ x ∈ l, x < 256) →
    b64DecodeList (b64EncodeChars l) = some l := by
  intro l
  induction l using b64EncodeChars.induct with
  | case1 => intro _; rfl
  | case2 a =>
    intro h
    have ha : a < 256 := h a (by simp)
    have h1 : a / 4 < 64 := by omega
    have h2 : (a % 4) * 16 < 64 := by omega
    simp only [b64EncodeChars, b64DecodeList,
      b64CharVal_b64Char _ h1, b64CharVal_b64Char _ h2]
    simp only [Option.some.injEq, List.cons.injEq, and_true]
    omega
  | case3 a b =>
    intro h
    have ha : a < 256 := h a (by simp)
    have hb : b < 256 := h b (by simp)
    have h1 : a / 4 < 64 := by omega
    have h2 : (a % 4) * 16 + b / 16 < 64 := by omega
    have h3 : (b % 16) * 4 < 64 := by omega
    simp only [b64EncodeChars, b64DecodeList,
      b64CharVal_b64Char _ h1, b64CharVal_b64Char _ h2,
      b64CharVal_b64Char _ h3]
    simp only [Option.some.injEq, List.cons.injEq, and_true]
    constructor
    · omega
    · omega
  | case4 a b cc rest ih =>
    intro h
    have ha : a < 256 := h a (by simp)
    have hb : b < 256 := h b (by simp)
    have hc : cc < 256 := h cc (by simp)
    have hrest : ∀ x ∈ rest, x < 256 := fun x hx => h x (by simp [hx])
    have h1 : a / 4 < 64 := by omega
    have h2 : (a % 4) * 16 + b / 16 < 64 := by omega
    have h3 : (b % 16) * 4 + cc / 64 < 64 := by omega
    have h4 : cc % 64 < 64 := by omega
    simp only [b64EncodeChars, b64DecodeList,
      b64CharVal_b64Char _ h1, b64CharVal_b64Char _ h2,
      b64CharVal_b64Char _ h3, b64CharVal_b64Char _ h4, ih hrest]
    simp only [Option.some.injEq, List.cons.injEq, and_true]
    refine ⟨by omega, by omega, by omega⟩

/-- Encoded output is untouched by the whitespace filter of `atob`. -/
theorem b64EncodeChars_filter (l : List Nat) :
    (b64EncodeChars l).filter (fun c => !(isB64Ws c)) =
      b64EncodeChars l := by
  apply List.filter_eq_self.2
  intro c hc
  rcases mem_b64EncodeChars l c hc with ⟨k, hk, rfl⟩
  simp [b64Char_not_ws k hk]

/-- A character list without padding signs is untouched by the padding
removal of `atob`. -/
theorem stripPad_no_pad (cs : List Char) (h : ∀ c ∈ cs, c.toNat ≠ 61) :
    stripPad cs = cs := by
  unfold stripPad
  split
  · split
    next c1 c2 rest heq =>
      have h1 : c1 ∈ cs := by
        have hm : c1 ∈ cs.reverse := by rw [heq]; simp
        simpa using hm
      have h2 : c2 ∈ cs := by
        have hm : c2 ∈ cs.reverse := by rw [heq]; simp
        simpa using hm
      simp [h c1 h1, h c2 h2]
    next c1 heq =>
      have h1 : c1 ∈ cs := by
        have hm : c1 ∈ cs.reverse := by rw [heq]; simp
        simpa using hm
      simp [h c1 h1]
    next => rfl
  · rfl

/-- Round trip: `atob` of the standard-alphabet base64 encoding of byte
values below 256 recovers exactly those bytes. -/
theorem atobF_base64Encode (l : List Nat) (h : ∀ x ∈ l, x < 256) :
    atobF (base64Encode l) = some l := by
  have hpad : ∀ c ∈ b64EncodeChars l, c.toNat ≠ 61 := by
    intro c hc
    rcases mem_b64EncodeChars l c hc with ⟨k, hk, rfl⟩
    exact b64Char_ne_pad k hk
  have hdata : (base64Encode l).data = b64EncodeChars l := rfl
  unfold atobF
  rw [hdata, b64EncodeChars_filter]
  show (if (stripPad (b64EncodeChars l)).length % 4 = 1 then none
        else b64DecodeList (stripPad (b64EncodeChars l))) = some l
  rw [stripPad_no_pad _ hpad, if_neg (b64EncodeChars_length_mod l)]
  exact b64DecodeList_encode l h

/-- Splitting never yields an empty list of segments. -/
theorem jsSplitDot_ne_nil : ∀ l : List Char, jsSplitDot l ≠ [] := by
  intro l
  cases l with
  | nil => simp [jsSplitDot]
  | cons c rest =>
    simp only [jsSplitDot]
    by_cases hc : c = Char.ofNat 46
    · simp [hc]
    · cases hr : jsSplitDot rest <;> simp [hc, hr]

/-- A dot-free prefix followed by a dot splits off as one segment. -/
theorem jsSplitDot_no_dot_append (mid rest : List Char)
    (hm : Char.ofNat 46 ∉ mid) :
    jsSplitDot (mid ++ Char.ofNat 46 :: rest) =
      mid :: jsSplitDot rest := by
  induction mid with
  | nil => simp [jsSplitDot]
  | cons c m ih =>
    have hc : c ≠ Char.ofNat 46 := fun h => hm (by simp [h])
    have hm2 : Char.ofNat 46 ∉ m := fun h => hm (by simp [h])
    simp only [List.cons_append, jsSplitDot, List.append_eq]
    rw [if_neg hc, ih hm2]

/-- The second segment of `head.mid.rest` is `mid` whenever `head` and
`mid` are dot-free. -/
theorem jsSplitDot_second (a mid rest : List Char)
    (ha : Char.ofNat 46 ∉ a) (hm : Char.ofNat 46 ∉ mid) :
    (jsSplitDot
      (a ++ Char.ofNat 46 :: (mid ++ Char.ofNat 46 :: rest)))[1]? =
      some mid := by
  induction a with
  | nil =>
    simp only [List.nil_append, jsSplitDot, if_pos rfl]
    rw [jsSplitDot_no_dot_append mid rest hm]
    simp
  | cons c a2 ih =>
    have hc : c ≠ Char.ofNat 46 := fun h => ha (by simp [h])
    have ha2 : Char.ofNat 46 ∉ a2 := fun h => ha (by simp [h])
    have hne := jsSplitDot_ne_nil
      (a2 ++ Char.ofNat 46 :: (mid ++ Char.ofNat 46 :: rest))
    simp only [List.cons_append, jsSplitDot]
    rw [if_neg hc]
    cases hr : jsSplitDot
        (a2 ++ Char.ofNat 46 :: (mid ++ Char.ofNat 46 :: rest)) with
    | nil => exact absurd hr hne
    | cons s ss =>
      have hprev := ih ha2
      rw [hr] at hprev
      simpa using hprev

/-- C7 counterexample: the middle segment of the token below is the
URL-safe base64 encoding of a JSON object carrying `sub`, `role` and
`username`, yet `decodeAndSetUser` leaves the identity unset, because
`atob` rejects the URL-safe alphabet's minus character. -/
theorem decodeAndSetUser_urlsafe_counterexample :
    jsonParse
      (("\x7b\"sub\":\"1\",\"role\":\"user\",\"username\":\"q~\"\x7d").data.map
        Char.toNat) =
      some (.obj [("sub", .str "1"), ("role", .str "user"),
        ("username", .str "q~")]) ∧
    base64urlEncode
      (("\x7b\"sub\":\"1\",\"role\":\"user\",\"username\":\"q~\"\x7d").data.map
        Char.toNat) =
      "eyJzdWIiOiIxIiwicm9sZSI6InVzZXIiLCJ1c2VybmFtZSI6InF-In0" ∧
    decodeAndSetUser
      ("h." ++
        base64urlEncode
          (("\x7b\"sub\":\"1\",\"role\":\"user\",\"username\":\"q~\"\x7d").data.map
            Char.toNat) ++ ".s") = none :=
  ⟨rfl, rfl, rfl⟩

/-- C7 amended: for every token of dot-separated segments whose middle
segment is the standard-alphabet base64 encoding (the alphabet `atob`
accepts; the URL-safe alphabet's minus and underscore are rejected, as
the counterexample shows) of a JSON object carrying nonempty string
fields `sub`, `role` and `username` — further members of any JSON value
may be present — `decodeAndSetUser` parses the segment and sets the
identity derived from those fields; and every token whose middle
segment fails to decode or parse leaves the identity unset rather than
throwing. -/
theorem decodeAndSetUser_spec (hd tl : String) (p : List Nat)
    (fields : List (String × JVal)) (sub role uname : String)
    (hhd : Char.ofNat 46 ∉ hd.data)
    (hbytes : ∀ x ∈ p, x < 256)
    (hp : jsonParse p = some (.obj fields))
    (hsub : jLookup fields "sub" = some (.str sub))
    (hrole : jLookup fields "role" = some (.str role))
    (hrole2 : role ≠ "")
    (hun : jLookup fields "username" = some (.str uname))
    (hun2 : uname ≠ "") :
    decodeAndSetUser (hd ++ "." ++ base64Encode p ++ "." ++ tl) =
      some ⟨jsParseInt sub, role, uname⟩ ∧
    (∀ token : String, atobMiddle token = none →
      decodeAndSetUser token = none) ∧
    (∀ (token : String) (bs : List Nat), atobMiddle token = some bs →
      jsonParse bs = none → decodeAndSetUser token = none) := by
  refine ⟨?_, ?_, ?_⟩
  · have hmid : Char.ofNat 46 ∉ b64EncodeChars p := by
      intro hmem
      rcases mem_b64EncodeChars p _ hmem with ⟨k, hk, heq⟩
      exact b64Char_ne_dot k hk heq.symm
    have hdata : (hd ++ "." ++ base64Encode p ++ "." ++ tl).data =
        hd.data ++ Char.ofNat 46 ::
          (b64EncodeChars p ++ Char.ofNat 46 :: tl.data) := by
      have hdot : (".").data = [Char.ofNat 46] := by decide
      simp [String.data_append, hdot, base64Encode]
    have hseg : atobMiddle (hd ++ "." ++ base64Encode p ++ "." ++ tl) =
        some p := by
      unfold atobMiddle
      rw [hdata, jsSplitDot_second _ _ _ hhd hmid]
      exact atobF_base64Encode p hbytes
    unfold decodeAndSetUser
    rw [hseg]
    simp only [hp]
    simp [jGet, hsub, hrole, hun, jsToStr, jsValToString, jsOrVal,
      hrole2, hun2]
  · intro token hnone
    unfold decodeAndSetUser
    rw [hnone]
  · intro token bs hsome hparse
    unfold decodeAndSetUser
    rw [hsome]
    simp [hparse]

/-- C7 witness: a concrete three-segment token whose middle segment is
the standard-alphabet base64 encoding of a payload with `sub`, `role`
and `username` decodes to the expected identity. -/
theorem decodeAndSetUser_spec_witness :
    decodeAndSetUser
      ("h" ++ "." ++
        base64Encode
          (("\x7b\"sub\":\"1\",\"role\":\"user\",\"username\":\"q~\"\x7d").data.map
            Char.toNat) ++ "." ++ "s") =
      some ⟨jsParseInt "1", "user", "q~"⟩ :=
  (decodeAndSetUser_spec "h" "s"
    (("\x7b\"sub\":\"1\",\"role\":\"user\",\"username\":\"q~\"\x7d").data.map
      Char.toNat)
    [("sub", .str "1"), ("role", .str "user"), ("username", .str "q~")]
    "1" "user" "q~" (by decide) (by decide) rfl rfl rfl (by decide)
    rfl (by decide)).1

/-- C1 witness: a 401 followed by a successful refresh and a 204 retry —
one refresh, one retry carrying the new token, the retry's result
returned, session refreshed. -/
theorem request_401_single_refresh_witness :
    apiRequest ⟨some "t", some "r"⟩ (.resp ⟨401, .obj none⟩)
        (.resp true (some ⟨"t2", "r2"⟩)) (.resp ⟨204, .obj none⟩) =
      ⟨retryOutcomeOf (.resp ⟨204, .obj none⟩),
       (refreshTokenRun ⟨some "t", some "r"⟩
         (.resp true (some ⟨"t2", "r2"⟩))).2.1,
       [.fetchOriginal (some "t"), .postRefresh,
        .fetchRetry (refreshTokenRun ⟨some "t", some "r"⟩
          (.resp true (some ⟨"t2", "r2"⟩))).2.1.token]⟩ :=
  (request_401_single_refresh ⟨some "t", some "r"⟩ ⟨401, .obj none⟩
    (.resp true (some ⟨"t2", "r2"⟩)) (.resp ⟨204, .obj none⟩)
    rfl).2.2.2 rfl

end MuggleGuide
